import Mathlib

/-!
Shallow embedding of the expense tracker service implemented in
src/main.py.

The SQLite store is modelled as in-memory tables of rows together with
the AUTOINCREMENT counters that SQLite keeps in sqlite_sequence: a
counter is bumped on every successful insert and is never decreased, so
an identifier of a deleted row is never handed out again.  Amounts
(SQLite REAL) are modelled as exact integers.  Date strings are compared
by the BINARY collation of SQLite, byte-wise over their UTF-8 encoding,
which agrees with code-point lexicographic comparison; this is the
function charsLe below.  Database failures (unreachable file, lock
timeouts) are outside the model: every operation is modelled on its
non-exceptional path, which is the path all the claims are about.
-/

/-- Lexicographic comparison of two lists of characters by code point.
This is exactly how the BINARY collation of SQLite orders TEXT values
that are encoded in UTF-8. -/
def charsLe : List Char → List Char → Bool
  | [], _ => true
  | _ :: _, [] => false
  | c1 :: t1, c2 :: t2 =>
    if c1.toNat = c2.toNat then charsLe t1 t2 else decide (c1.toNat < c2.toNat)

/-- Byte-wise string comparison, the order used by the `BETWEEN` and the
`ORDER BY date DESC` clauses of src/main.py. -/
def strLe (a b : String) : Bool := charsLe a.data b.data

/-- Strict version of `strLe`. -/
def strLt (a b : String) : Bool := strLe a b && !(a == b)

/-- One row of the `expenses` table created by `init_db` in src/main.py:
id INTEGER PRIMARY KEY AUTOINCREMENT, date TEXT, amount REAL,
category TEXT, subcategory TEXT DEFAULT empty, note TEXT DEFAULT empty. -/
structure ExpenseRow where
  id : Nat
  date : String
  amount : Int
  category : String
  subcategory : String
  note : String
  deriving Repr, DecidableEq

/-- One row of the `income` table created by `init_db` in src/main.py:
id INTEGER PRIMARY KEY AUTOINCREMENT, date TEXT, amount REAL,
source TEXT, note TEXT DEFAULT empty. -/
structure IncomeRow where
  id : Nat
  date : String
  amount : Int
  source : String
  note : String
  deriving Repr, DecidableEq

/-- The database file: the two tables plus the AUTOINCREMENT counters
that SQLite keeps for them in sqlite_sequence. -/
structure Store where
  expenses : List ExpenseRow
  income : List IncomeRow
  nextExpenseId : Nat
  nextIncomeId : Nat
  deriving Repr, DecidableEq

/-- A database file that has never been written: both tables empty, the
first AUTOINCREMENT identifier of each table is 1. -/
def emptyStore : Store := ⟨[], [], 1, 1⟩

/-- The writability self-test of `init_db` (src/main.py lines 45-47): it
inserts a probe expense row with date 2000-01-01, amount 0 and category
test, then executes DELETE FROM expenses WHERE category = 'test'.  Table
creation is `IF NOT EXISTS`, so on an existing store only the probe
insert and the delete have an effect; the probe insert still consumes an
AUTOINCREMENT identifier. -/
def init_db (s : Store) : Store :=
  let probe : ExpenseRow := ⟨s.nextExpenseId, "2000-01-01", 0, "test", "", ""⟩
  { s with
    expenses := (s.expenses ++ [probe]).filter (fun r => !(r.category == "test")),
    nextExpenseId := s.nextExpenseId + 1 }

/-- Result shape of `add_expense` and `add_income`: either
`{status: ok, id: ...}` or `{status: error, message: ...}`. -/
inductive AddResult where
  | ok (id : Nat)
  | error (message : String)
  deriving Repr, DecidableEq

/-- Result shape of `edit_expense` and `edit_income`: either
`{status: ok, id: ..., updated_fields: ...}` or an error message. -/
inductive EditResult where
  | ok (id : Nat) (updated_fields : Nat)
  | error (message : String)
  deriving Repr, DecidableEq

/-- Result shape of `delete_expense` and `delete_income`: either
`{status: ok, id: ..., message: ...}` or an error message. -/
inductive DeleteResult where
  | ok (id : Nat) (message : String)
  | error (message : String)
  deriving Repr, DecidableEq

/-- The SQL predicate `date BETWEEN start_date AND end_date`, an
inclusive range under byte-wise string comparison. -/
def dateInRange (start_date end_date d : String) : Bool :=
  strLe start_date d && strLe d end_date

/-- The message of the NotFound error of the expense operations,
f-string `Expense with id {expense_id} not found` in src/main.py. -/
def expenseNotFoundMsg (expense_id : Nat) : String :=
  "Expense with id " ++ toString expense_id ++ " not found"

/-- The message of the NotFound error of the income operations. -/
def incomeNotFoundMsg (income_id : Nat) : String :=
  "Income with id " ++ toString income_id ++ " not found"

/-- The `add_expense` tool (src/main.py lines 58-73): INSERT with the
five column values, the identifier is the AUTOINCREMENT counter; the
Python defaults fill subcategory and note with the empty string when the
caller omits them. -/
def add_expense (s : Store) (date : String) (amount : Int) (category : String)
    (subcategory : String) (note : String) : Store × AddResult :=
  let row : ExpenseRow := ⟨s.nextExpenseId, date, amount, category, subcategory, note⟩
  ({ s with
      expenses := s.expenses ++ [row],
      nextExpenseId := s.nextExpenseId + 1 },
   AddResult.ok s.nextExpenseId)

/-- The dynamic SET clause that `edit_expense` builds (src/main.py lines
86-103): one assignment per optional argument that is present, in the
fixed order date, amount, category, subcategory, note. -/
def expenseUpdates (date : Option String) (amount : Option Int)
    (category subcategory note : Option String) : List (ExpenseRow → ExpenseRow) :=
  (match date with
    | some v => [fun r => { r with date := v }]
    | none => []) ++
  (match amount with
    | some v => [fun r => { r with amount := v }]
    | none => []) ++
  (match category with
    | some v => [fun r => { r with category := v }]
    | none => []) ++
  (match subcategory with
    | some v => [fun r => { r with subcategory := v }]
    | none => []) ++
  (match note with
    | some v => [fun r => { r with note := v }]
    | none => [])

/-- Application of the SET clause to one row. -/
def applyExpenseUpdates (date : Option String) (amount : Option Int)
    (category subcategory note : Option String) (r : ExpenseRow) : ExpenseRow :=
  (expenseUpdates date amount category subcategory note).foldl (fun r u => u r) r

/-- The `edit_expense` tool (src/main.py lines 75-115): first a pre-read
`SELECT * FROM expenses WHERE id = ?`; a missing row is the NotFound
error; an empty SET clause is the NoOp error; otherwise
`UPDATE expenses SET ... WHERE id = ?` and a result that reports the
number of updated fields. -/
def edit_expense (s : Store) (expense_id : Nat) (date : Option String)
    (amount : Option Int) (category subcategory note : Option String) :
    Store × EditResult :=
  if !(s.expenses.any (fun r => r.id == expense_id)) then
    (s, EditResult.error (expenseNotFoundMsg expense_id))
  else
    let updates := expenseUpdates date amount category subcategory note
    if updates.isEmpty then
      (s, EditResult.error "No fields to update")
    else
      ({ s with
          expenses := s.expenses.map (fun r =>
            if r.id == expense_id then
              applyExpenseUpdates date amount category subcategory note r
            else r) },
       EditResult.ok expense_id updates.length)

/-- The `delete_expense` tool (src/main.py lines 117-131): pre-read, then
`DELETE FROM expenses WHERE id = ?`. -/
def delete_expense (s : Store) (expense_id : Nat) : Store × DeleteResult :=
  if !(s.expenses.any (fun r => r.id == expense_id)) then
    (s, DeleteResult.error (expenseNotFoundMsg expense_id))
  else
    ({ s with expenses := s.expenses.filter (fun r => !(r.id == expense_id)) },
     DeleteResult.ok expense_id "Expense deleted successfully")

/-- The sort key of `ORDER BY date DESC, id DESC`: row a may come before
row b when the date of a is larger, with ties broken by the identifier. -/
def expenseDescLe (a b : ExpenseRow) : Bool :=
  if a.date = b.date then decide (b.id ≤ a.id) else strLe b.date a.date

/-- The `list_expenses` tool (src/main.py lines 133-150): the rows whose
date lies in the inclusive range, ordered by date descending with ties
broken by identifier descending. -/
def list_expenses (s : Store) (start_date end_date : String) : List ExpenseRow :=
  (s.expenses.filter (fun r => dateInRange start_date end_date r.date)).mergeSort
    expenseDescLe

/-- The `add_income` tool (src/main.py lines 154-169). -/
def add_income (s : Store) (date : String) (amount : Int) (source : String)
    (note : String) : Store × AddResult :=
  let row : IncomeRow := ⟨s.nextIncomeId, date, amount, source, note⟩
  ({ s with
      income := s.income ++ [row],
      nextIncomeId := s.nextIncomeId + 1 },
   AddResult.ok s.nextIncomeId)

/-- The sort key of `ORDER BY date DESC, id DESC` for income rows. -/
def incomeDescLe (a b : IncomeRow) : Bool :=
  if a.date = b.date then decide (b.id ≤ a.id) else strLe b.date a.date

/-- The `list_income` tool (src/main.py lines 171-188). -/
def list_income (s : Store) (start_date end_date : String) : List IncomeRow :=
  (s.income.filter (fun r => dateInRange start_date end_date r.date)).mergeSort
    incomeDescLe

/-- The dynamic SET clause that `edit_income` builds (src/main.py lines
200-215), in the fixed order date, amount, source, note. -/
def incomeUpdates (date : Option String) (amount : Option Int)
    (source note : Option String) : List (IncomeRow → IncomeRow) :=
  (match date with
    | some v => [fun r => { r with date := v }]
    | none => []) ++
  (match amount with
    | some v => [fun r => { r with amount := v }]
    | none => []) ++
  (match source with
    | some v => [fun r => { r with source := v }]
    | none => []) ++
  (match note with
    | some v => [fun r => { r with note := v }]
    | none => [])

/-- Application of the income SET clause to one row. -/
def applyIncomeUpdates (date : Option String) (amount : Option Int)
    (source note : Option String) (r : IncomeRow) : IncomeRow :=
  (incomeUpdates date amount source note).foldl (fun r u => u r) r

/-- The `edit_income` tool (src/main.py lines 190-227). -/
def edit_income (s : Store) (income_id : Nat) (date : Option String)
    (amount : Option Int) (source note : Option String) : Store × EditResult :=
  if !(s.income.any (fun r => r.id == income_id)) then
    (s, EditResult.error (incomeNotFoundMsg income_id))
  else
    let updates := incomeUpdates date amount source note
    if updates.isEmpty then
      (s, EditResult.error "No fields to update")
    else
      ({ s with
          income := s.income.map (fun r =>
            if r.id == income_id then applyIncomeUpdates date amount source note r
            else r) },
       EditResult.ok income_id updates.length)

/-- The `delete_income` tool (src/main.py lines 229-243). -/
def delete_income (s : Store) (income_id : Nat) : Store × DeleteResult :=
  if !(s.income.any (fun r => r.id == income_id)) then
    (s, DeleteResult.error (incomeNotFoundMsg income_id))
  else
    ({ s with income := s.income.filter (fun r => !(r.id == income_id)) },
     DeleteResult.ok income_id "Income deleted successfully")

/-- Result shape of `get_balance` (src/main.py lines 270-276). -/
structure BalanceResult where
  total_income : Int
  total_expenses : Int
  balance : Int
  start_date : String
  end_date : String
  deriving Repr, DecidableEq

/-- The `get_balance` tool (src/main.py lines 247-278): two independent
SUM aggregates over the inclusive range; a NULL sum, which SQLite
returns when no row matches, is replaced by 0, which coincides with the
sum over the empty list; the balance is income minus expenses and the
range is echoed back. -/
def get_balance (s : Store) (start_date end_date : String) : BalanceResult :=
  let total_expenses :=
    ((s.expenses.filter (fun r => dateInRange start_date end_date r.date)).map
      (fun r => r.amount)).sum
  let total_income :=
    ((s.income.filter (fun r => dateInRange start_date end_date r.date)).map
      (fun r => r.amount)).sum
  { total_income := total_income
    total_expenses := total_expenses
    balance := total_income - total_expenses
    start_date := start_date
    end_date := end_date }

/-- One element of the result of `summarize`: category, SUM(amount) and
COUNT(*) of one group. -/
structure CatSummary where
  category : String
  total_amount : Int
  count : Nat
  deriving Repr, DecidableEq

/-- Python truthiness of the optional category argument: `if category:`
is false both for None and for the empty string. -/
def pyTruthy : Option String → Bool
  | none => false
  | some v => !(v == "")

/-- The `summarize` tool (src/main.py lines 280-302): rows of the
inclusive range, restricted to one category only when the argument is
truthy, grouped by category with SUM(amount) and COUNT(*), ordered by
total amount descending. -/
def summarize (s : Store) (start_date end_date : String)
    (category : Option String) : List CatSummary :=
  let rows0 := s.expenses.filter (fun r => dateInRange start_date end_date r.date)
  let rows := if pyTruthy category then
      rows0.filter (fun r => r.category == category.getD "")
    else rows0
  let cats := (rows.map (fun r => r.category)).dedup
  let groups := cats.map (fun c =>
    let g := rows.filter (fun r => r.category == c)
    CatSummary.mk c ((g.map (fun r => r.amount)).sum) g.length)
  groups.mergeSort (fun a b => decide (b.total_amount ≤ a.total_amount))

/-- The identifiers currently present in the expenses table. -/
def expenseIds (s : Store) : List Nat := s.expenses.map (fun r => r.id)

/-- The identifiers currently present in the income table. -/
def incomeIds (s : Store) : List Nat := s.income.map (fun r => r.id)

/-- One mutating tool call, for reasoning about arbitrary operation
sequences. -/
inductive Op where
  | addExp (date : String) (amount : Int) (category subcategory note : String)
  | editExp (expense_id : Nat) (date : Option String) (amount : Option Int)
      (category subcategory note : Option String)
  | delExp (expense_id : Nat)
  | addInc (date : String) (amount : Int) (source note : String)
  | editInc (income_id : Nat) (date : Option String) (amount : Option Int)
      (source note : Option String)
  | delInc (income_id : Nat)
  deriving Repr, DecidableEq

/-- State effect of one tool call. -/
def applyOp (s : Store) : Op → Store
  | Op.addExp d a c sc n => (add_expense s d a c sc n).1
  | Op.editExp i d a c sc n => (edit_expense s i d a c sc n).1
  | Op.delExp i => (delete_expense s i).1
  | Op.addInc d a src n => (add_income s d a src n).1
  | Op.editInc i d a src n => (edit_income s i d a src n).1
  | Op.delInc i => (delete_income s i).1

/-- State effect of a sequence of tool calls. -/
def applyOps (s : Store) : List Op → Store
  | [] => s
  | op :: ops => applyOps (applyOp s op) ops

/-- The store of a freshly started process: `init_db` run over a never
written database file. -/
def freshStore : Store := init_db emptyStore

/-- Well-formedness of a store: identifiers are duplicate-free and below
the AUTOINCREMENT counter of their table. -/
def storeWF (s : Store) : Prop :=
  (expenseIds s).Nodup ∧ (∀ x ∈ expenseIds s, x < s.nextExpenseId) ∧
  (incomeIds s).Nodup ∧ (∀ x ∈ incomeIds s, x < s.nextIncomeId)

/-- A small concrete store used to instantiate the theorems: three
expenses and one income, AUTOINCREMENT counters one past the largest
identifiers. -/
def demoStore : Store :=
  { expenses := [⟨1, "2024-01-05", 50, "Food & Dining", "", ""⟩,
                 ⟨2, "2024-01-10", 20, "Food & Dining", "", ""⟩,
                 ⟨3, "2024-01-12", 30, "Travel", "flight", "to Rome"⟩],
    income := [⟨1, "2024-01-07", 1000, "Salary", ""⟩],
    nextExpenseId := 4,
    nextIncomeId := 2 }

/-! Helper lemmas about the byte-wise string order. -/

/-- Two characters with the same code point are equal. -/
theorem char_toNat_inj {c1 c2 : Char} (h : c1.toNat = c2.toNat) : c1 = c2 := by
  apply Char.ext
  apply UInt32.toNat.inj
  exact h

/-- Totality of the code-point comparison. -/
theorem charsLe_total : ∀ a b : List Char, (charsLe a b || charsLe b a) = true := by
  intro a
  induction a with
  | nil => intro b; simp [charsLe]
  | cons c t ih =>
    intro b
    cases b with
    | nil => simp [charsLe]
    | cons c2 t2 =>
      rcases Nat.lt_trichotomy c.toNat c2.toNat with hlt | heq | hgt
      · have hne : ¬ c.toNat = c2.toNat := by omega
        have hne2 : ¬ c2.toNat = c.toNat := by omega
        simp [charsLe, hne, hne2, hlt]
      · simp only [charsLe]
        rw [if_pos heq, if_pos heq.symm]
        exact ih t2
      · have hne : ¬ c.toNat = c2.toNat := by omega
        have hne2 : ¬ c2.toNat = c.toNat := by omega
        simp [charsLe, hne, hne2, hgt]

/-- Transitivity of the code-point comparison. -/
theorem charsLe_trans :
    ∀ a b c : List Char, charsLe a b = true → charsLe b c = true →
      charsLe a c = true := by
  intro a
  induction a with
  | nil => intro b c _ _; cases c <;> simp [charsLe]
  | cons x t1 ih =>
    intro b c hab hbc
    cases b with
    | nil => simp [charsLe] at hab
    | cons y t2 =>
      cases c with
      | nil => simp [charsLe] at hbc
      | cons z t3 =>
        simp only [charsLe] at hab hbc ⊢
        by_cases h1 : x.toNat = y.toNat <;> by_cases h2 : y.toNat = z.toNat
        · have h3 : x.toNat = z.toNat := h1.trans h2
          rw [if_pos h1] at hab
          rw [if_pos h2] at hbc
          rw [if_pos h3]
          exact ih t2 t3 hab hbc
        · rw [if_pos h1] at hab
          rw [if_neg h2] at hbc
          have h3 : ¬ x.toNat = z.toNat := by
            simp only [decide_eq_true_iff] at hbc; omega
          rw [if_neg h3]
          simp only [decide_eq_true_iff] at hbc ⊢
          omega
        · rw [if_neg h1] at hab
          rw [if_pos h2] at hbc
          have h3 : ¬ x.toNat = z.toNat := by
            simp only [decide_eq_true_iff] at hab; omega
          rw [if_neg h3]
          simp only [decide_eq_true_iff] at hab ⊢
          omega
        · rw [if_neg h1] at hab
          rw [if_neg h2] at hbc
          simp only [decide_eq_true_iff] at hab hbc
          have h3 : ¬ x.toNat = z.toNat := by omega
          rw [if_neg h3]
          simp only [decide_eq_true_iff]
          omega

/-- Antisymmetry of the code-point comparison. -/
theorem charsLe_antisymm :
    ∀ a b : List Char, charsLe a b = true → charsLe b a = true → a = b := by
  intro a
  induction a with
  | nil =>
    intro b _ hba
    cases b with
    | nil => rfl
    | cons y t2 => simp [charsLe] at hba
  | cons x t1 ih =>
    intro b hab hba
    cases b with
    | nil => simp [charsLe] at hab
    | cons y t2 =>
      simp only [charsLe] at hab hba
      by_cases h1 : x.toNat = y.toNat
      · have h2 : y.toNat = x.toNat := h1.symm
        rw [if_pos h1] at hab
        rw [if_pos h2] at hba
        rw [char_toNat_inj h1, ih t2 hab hba]
      · have h2 : ¬ y.toNat = x.toNat := fun e => h1 e.symm
        rw [if_neg h1] at hab
        rw [if_neg h2] at hba
        simp only [decide_eq_true_iff] at hab hba
        omega

/-- Totality of `strLe`. -/
theorem strLe_total (a b : String) : (strLe a b || strLe b a) = true :=
  charsLe_total a.data b.data

/-- Transitivity of `strLe`. -/
theorem strLe_trans {a b c : String} (hab : strLe a b = true)
    (hbc : strLe b c = true) : strLe a c = true :=
  charsLe_trans a.data b.data c.data hab hbc

/-- Antisymmetry of `strLe`. -/
theorem strLe_antisymm {a b : String} (hab : strLe a b = true)
    (hba : strLe b a = true) : a = b := by
  cases a with
  | mk da =>
    cases b with
    | mk db =>
      have : da = db := charsLe_antisymm da db hab hba
      rw [this]

/-- Transitivity of the sort key date descending, identifier descending,
stated on the raw key. -/
theorem dateIdDescLe_trans {d1 d2 d3 : String} {i1 i2 i3 : Nat}
    (hab : (if d1 = d2 then decide (i2 ≤ i1) else strLe d2 d1) = true)
    (hbc : (if d2 = d3 then decide (i3 ≤ i2) else strLe d3 d2) = true) :
    (if d1 = d3 then decide (i3 ≤ i1) else strLe d3 d1) = true := by
  by_cases h1 : d1 = d2 <;> by_cases h2 : d2 = d3
  · have h3 : d1 = d3 := h1.trans h2
    rw [if_pos h1] at hab
    rw [if_pos h2] at hbc
    rw [if_pos h3]
    simp only [decide_eq_true_iff] at hab hbc ⊢
    omega
  · have h3 : ¬ d1 = d3 := fun e => h2 (h1.symm.trans e)
    rw [if_neg h2] at hbc
    rw [if_neg h3, h1]
    exact hbc
  · have h3 : ¬ d1 = d3 := fun e => h1 (e.trans h2.symm)
    rw [if_neg h1] at hab
    rw [if_neg h3, ← h2]
    exact hab
  · rw [if_neg h1] at hab
    rw [if_neg h2] at hbc
    by_cases h3 : d1 = d3
    · exfalso
      apply h1
      apply (strLe_antisymm · hab)
      rw [← h3] at hbc
      exact hbc
    · rw [if_neg h3]
      exact strLe_trans hbc hab

/-- Totality of the sort key, stated on the raw key. -/
theorem dateIdDescLe_total (d1 d2 : String) (i1 i2 : Nat) :
    ((if d1 = d2 then decide (i2 ≤ i1) else strLe d2 d1) ||
      (if d2 = d1 then decide (i1 ≤ i2) else strLe d1 d2)) = true := by
  by_cases h : d1 = d2
  · have h2 : d2 = d1 := h.symm
    rw [if_pos h, if_pos h2]
    simp only [Bool.or_eq_true, decide_eq_true_iff]
    omega
  · have h2 : ¬ d2 = d1 := fun e => h e.symm
    rw [if_neg h, if_neg h2]
    exact strLe_total d2 d1

/-- Transitivity of `expenseDescLe`. -/
theorem expenseDescLe_trans (a b c : ExpenseRow)
    (hab : expenseDescLe a b = true) (hbc : expenseDescLe b c = true) :
    expenseDescLe a c = true :=
  dateIdDescLe_trans hab hbc

/-- Totality of `expenseDescLe`. -/
theorem expenseDescLe_total (a b : ExpenseRow) :
    (expenseDescLe a b || expenseDescLe b a) = true :=
  dateIdDescLe_total a.date b.date a.id b.id

/-- Transitivity of `incomeDescLe`. -/
theorem incomeDescLe_trans (a b c : IncomeRow)
    (hab : incomeDescLe a b = true) (hbc : incomeDescLe b c = true) :
    incomeDescLe a c = true :=
  dateIdDescLe_trans hab hbc

/-- Totality of `incomeDescLe`. -/
theorem incomeDescLe_total (a b : IncomeRow) :
    (incomeDescLe a b || incomeDescLe b a) = true :=
  dateIdDescLe_total a.date b.date a.id b.id

/-! Helper lemmas about the dynamic SET clauses. -/

/-- The SET clause of `edit_expense`, applied to one row, keeps the
identifier and merges each present optional value over the old field. -/
theorem applyExpenseUpdates_eq (d : Option String) (a : Option Int)
    (c sc n : Option String) (r : ExpenseRow) :
    applyExpenseUpdates d a c sc n r =
      ⟨r.id, d.getD r.date, a.getD r.amount, c.getD r.category,
        sc.getD r.subcategory, n.getD r.note⟩ := by
  cases d <;> cases a <;> cases c <;> cases sc <;> cases n <;> rfl

/-- Length of the SET clause of `edit_expense`: one per present field. -/
theorem expenseUpdates_length (d : Option String) (a : Option Int)
    (c sc n : Option String) :
    (expenseUpdates d a c sc n).length =
      (cond d.isSome 1 0) + (cond a.isSome 1 0) + (cond c.isSome 1 0) +
        (cond sc.isSome 1 0) + (cond n.isSome 1 0) := by
  cases d <;> cases a <;> cases c <;> cases sc <;> cases n <;> rfl

/-- The SET clause of `edit_expense` is empty exactly when every
optional field is omitted. -/
theorem expenseUpdates_isEmpty (d : Option String) (a : Option Int)
    (c sc n : Option String) :
    (expenseUpdates d a c sc n).isEmpty = true ↔
      d = none ∧ a = none ∧ c = none ∧ sc = none ∧ n = none := by
  cases d <;> cases a <;> cases c <;> cases sc <;> cases n <;> simp [expenseUpdates]

/-- The SET clause of `edit_income`, applied to one row, keeps the
identifier and merges each present optional value over the old field. -/
theorem applyIncomeUpdates_eq (d : Option String) (a : Option Int)
    (src n : Option String) (r : IncomeRow) :
    applyIncomeUpdates d a src n r =
      ⟨r.id, d.getD r.date, a.getD r.amount, src.getD r.source, n.getD r.note⟩ := by
  cases d <;> cases a <;> cases src <;> cases n <;> rfl

/-- Length of the SET clause of `edit_income`. -/
theorem incomeUpdates_length (d : Option String) (a : Option Int)
    (src n : Option String) :
    (incomeUpdates d a src n).length =
      (cond d.isSome 1 0) + (cond a.isSome 1 0) + (cond src.isSome 1 0) +
        (cond n.isSome 1 0) := by
  cases d <;> cases a <;> cases src <;> cases n <;> rfl

/-- The SET clause of `edit_income` is empty exactly when every optional
field is omitted. -/
theorem incomeUpdates_isEmpty (d : Option String) (a : Option Int)
    (src n : Option String) :
    (incomeUpdates d a src n).isEmpty = true ↔
      d = none ∧ a = none ∧ src = none ∧ n = none := by
  cases d <;> cases a <;> cases src <;> cases n <;> simp [incomeUpdates]

/-! Helper lemmas about grouping. -/

/-- Summing a group-by result over a duplicate-free list of keys that
covers every element of the list reproduces the total sum. -/
theorem sum_groups_eq {α M : Type} [AddCommMonoid M] (key : α → String)
    (f : α → M) :
    ∀ cs : List String, cs.Nodup → ∀ l : List α, (∀ x ∈ l, key x ∈ cs) →
      (cs.map (fun c => ((l.filter (fun x => key x == c)).map f).sum)).sum =
        (l.map f).sum := by
  intro cs
  induction cs with
  | nil =>
    intro _ l hcov
    have : l = [] := by
      cases l with
      | nil => rfl
      | cons x xs => exact absurd (hcov x (by simp)) (by simp)
    rw [this]
    simp
  | cons c cs ih =>
    intro hnd l hcov
    have hnd' := List.nodup_cons.mp hnd
    have hsplit :
        (l.map f).sum =
          ((l.filter (fun x => key x == c)).map f).sum +
            ((l.filter (fun x => !(key x == c))).map f).sum := by
      have hp := (List.filter_append_perm (fun x => key x == c) l).map f
      have := hp.sum_eq
      rw [List.map_append, List.sum_append] at this
      exact this.symm
    rw [List.map_cons, List.sum_cons, hsplit]
    congr 1
    have hcov' : ∀ x ∈ l.filter (fun x => !(key x == c)), key x ∈ cs := by
      intro x hx
      rw [List.mem_filter] at hx
      have := hcov x hx.1
      rw [List.mem_cons] at this
      rcases this with h | h
      · exfalso
        rw [h] at hx
        simp at hx
      · exact h
    rw [← ih hnd'.2 (l.filter (fun x => !(key x == c))) hcov']
    apply congrArg
    apply List.map_congr_left
    intro c' hc'
    have hcc' : ¬ c' = c := fun e => hnd'.1 (e ▸ hc')
    congr 1
    rw [List.filter_filter]
    apply congrArg
    apply List.filter_congr
    intro x _
    by_cases h : key x = c'
    · have : ¬ key x == c := by
        simp only [beq_iff_eq]
        rw [h]
        exact hcc'
      simp [h, this, hcc']
    · simp [h]

/-- The length of a list is the sum of one per element. -/
theorem sum_map_one {α : Type} (l : List α) :
    (l.map (fun _ => (1 : ℕ))).sum = l.length := by
  induction l with
  | nil => rfl
  | cons x xs ih => simp [ih, Nat.add_comm]

/-! Claim C1. -/

/-- C1 counterexample: on the empty store no row with identifier 1
exists, and `edit_expense` with zero optional fields then returns the
NotFound error, not the NoOp error, because the existence pre-read runs
before the empty-update check. -/
theorem C1_counterexample :
    (edit_expense emptyStore 1 none none none none none).2 ≠
      EditResult.error "No fields to update" ∧
    (edit_expense emptyStore 1 none none none none none).2 =
      EditResult.error (expenseNotFoundMsg 1) := by
  constructor
  · decide
  · rfl

/-- C1, amended: calling `edit_expense` or `edit_income` with zero
optional fields supplied never mutates the store; it returns the NoOp
error `No fields to update` when a row with that identifier exists, and
the NotFound error when it does not. -/
theorem C1_edit_zero_fields (s : Store) (eid iid : Nat) :
    (edit_expense s eid none none none none none).1 = s ∧
    (edit_expense s eid none none none none none).2 =
      (if s.expenses.any (fun r => r.id == eid) then
        EditResult.error "No fields to update"
      else EditResult.error (expenseNotFoundMsg eid)) ∧
    (edit_income s iid none none none none).1 = s ∧
    (edit_income s iid none none none none).2 =
      (if s.income.any (fun r => r.id == iid) then
        EditResult.error "No fields to update"
      else EditResult.error (incomeNotFoundMsg iid)) := by
  by_cases he : s.expenses.any (fun r => r.id == eid) <;>
    by_cases hi : s.income.any (fun r => r.id == iid) <;>
      simp [edit_expense, edit_income, expenseUpdates, incomeUpdates, he, hi]

/-! Claim C2. -/

/-- C2: on an identifier that is present in neither table, each of the
four mutating row operations returns its NotFound error, produced by the
pre-read, and leaves the whole store unchanged. -/
theorem C2_notFound_no_mutation (s : Store) (eid iid : Nat)
    (he : ∀ r ∈ s.expenses, r.id ≠ eid) (hi : ∀ r ∈ s.income, r.id ≠ iid)
    (d : Option String) (a : Option Int) (c sc n : Option String)
    (d2 : Option String) (a2 : Option Int) (src2 n2 : Option String) :
    edit_expense s eid d a c sc n = (s, EditResult.error (expenseNotFoundMsg eid)) ∧
    delete_expense s eid = (s, DeleteResult.error (expenseNotFoundMsg eid)) ∧
    edit_income s iid d2 a2 src2 n2 = (s, EditResult.error (incomeNotFoundMsg iid)) ∧
    delete_income s iid = (s, DeleteResult.error (incomeNotFoundMsg iid)) := by
  have he' : s.expenses.any (fun r => r.id == eid) = false := by
    rw [List.any_eq_false]
    intro r hr
    simp [he r hr]
  have hi' : s.income.any (fun r => r.id == iid) = false := by
    rw [List.any_eq_false]
    intro r hr
    simp [hi r hr]
  refine ⟨?_, ?_, ?_, ?_⟩ <;>
    simp [edit_expense, delete_expense, edit_income, delete_income, he', hi']

/-- C2 witness: identifier 99 exists in neither table of the concrete
store, and all four operations return NotFound and change nothing. -/
theorem C2_witness :
    edit_expense demoStore 99 none (some 5) none none none =
      (demoStore, EditResult.error (expenseNotFoundMsg 99)) ∧
    delete_expense demoStore 99 =
      (demoStore, DeleteResult.error (expenseNotFoundMsg 99)) ∧
    edit_income demoStore 99 none (some 5) none none =
      (demoStore, EditResult.error (incomeNotFoundMsg 99)) ∧
    delete_income demoStore 99 =
      (demoStore, DeleteResult.error (incomeNotFoundMsg 99)) :=
  C2_notFound_no_mutation demoStore 99 99 (by decide) (by decide)
    none (some 5) none none none none (some 5) none none

/-! Claim C5. -/

/-- C5: `get_balance` returns the sum of expense amounts in range, the
sum of income amounts in range, each of them 0 when no row matches, the
balance income minus expenses, and the echoed range. -/
theorem C5_get_balance (s : Store) (a b : String) :
    (get_balance s a b).total_expenses =
      ((s.expenses.filter (fun r => dateInRange a b r.date)).map
        (fun r => r.amount)).sum ∧
    (get_balance s a b).total_income =
      ((s.income.filter (fun r => dateInRange a b r.date)).map
        (fun r => r.amount)).sum ∧
    (get_balance s a b).balance =
      (get_balance s a b).total_income - (get_balance s a b).total_expenses ∧
    (get_balance s a b).start_date = a ∧
    (get_balance s a b).end_date = b ∧
    ((∀ r ∈ s.expenses, dateInRange a b r.date = false) →
      (get_balance s a b).total_expenses = 0) ∧
    ((∀ r ∈ s.income, dateInRange a b r.date = false) →
      (get_balance s a b).total_income = 0) := by
  refine ⟨rfl, rfl, rfl, rfl, rfl, ?_, ?_⟩
  · intro h
    have hnil : s.expenses.filter (fun r => dateInRange a b r.date) = [] := by
      rw [List.filter_eq_nil_iff]
      intro r hr
      simp [h r hr]
    simp [get_balance, hnil]
  · intro h
    have hnil : s.income.filter (fun r => dateInRange a b r.date) = [] := by
      rw [List.filter_eq_nil_iff]
      intro r hr
      simp [h r hr]
    simp [get_balance, hnil]

/-- C5 witness: over a range that matches no row of the concrete store,
both totals are 0 and the balance identity holds. -/
theorem C5_witness :
    (get_balance demoStore "2025-01-01" "2025-12-31").total_expenses = 0 ∧
    (get_balance demoStore "2025-01-01" "2025-12-31").total_income = 0 ∧
    (get_balance demoStore "2025-01-01" "2025-12-31").balance =
      (get_balance demoStore "2025-01-01" "2025-12-31").total_income -
        (get_balance demoStore "2025-01-01" "2025-12-31").total_expenses :=
  ⟨(C5_get_balance demoStore "2025-01-01" "2025-12-31").2.2.2.2.2.1 (by decide),
   (C5_get_balance demoStore "2025-01-01" "2025-12-31").2.2.2.2.2.2 (by decide),
   (C5_get_balance demoStore "2025-01-01" "2025-12-31").2.2.1⟩

/-! Claim C9. -/

/-- C9: the self-test of `init_db` removes every expense row whose
category is `test`, not only its own probe row, and the probe insert
consumes an identifier, so the first expense added after initialising a
never written store receives identifier 2. -/
theorem C9_init_db_side_effects :
    (∀ s : Store, ∀ r ∈ (init_db s).expenses, r.category ≠ "test") ∧
    (∀ s : Store, ∀ r ∈ s.expenses, r.category = "test" →
      r ∉ (init_db s).expenses) ∧
    (∀ (d : String) (amt : Int) (c sc n : String),
      (add_expense (init_db emptyStore) d amt c sc n).2 = AddResult.ok 2) := by
  refine ⟨?_, ?_, ?_⟩
  · intro s r hr
    simp only [init_db, List.mem_filter] at hr
    simpa using hr.2
  · intro s r _ hcat hmem
    simp only [init_db, List.mem_filter] at hmem
    rw [hcat] at hmem
    simp at hmem
  · intro d amt c sc n
    rfl

/-- C9 witness: a user-added expense row with category `test` is gone
after `init_db` runs again, and a concrete first insert after a fresh
initialisation gets identifier 2. -/
theorem C9_witness :
    (⟨1, "2024-02-02", 7, "test", "", ""⟩ : ExpenseRow) ∉
      (init_db ⟨[⟨1, "2024-02-02", 7, "test", "", ""⟩], [], 2, 1⟩).expenses ∧
    (add_expense (init_db emptyStore) "2024-03-01" 12 "Food & Dining" "" "").2 =
      AddResult.ok 2 :=
  ⟨C9_init_db_side_effects.2.1 ⟨[⟨1, "2024-02-02", 7, "test", "", ""⟩], [], 2, 1⟩
      ⟨1, "2024-02-02", 7, "test", "", ""⟩ (by decide) (by decide),
   C9_init_db_side_effects.2.2 "2024-03-01" 12 "Food & Dining" "" ""⟩

/-! Claim C10. -/

/-- C10: `summarize` tests the category argument by Python truthiness,
so an explicit empty-string category yields exactly the unfiltered
result, for every store and range. -/
theorem C10_summarize_empty_category (s : Store) (a b : String) :
    summarize s a b (some "") = summarize s a b none := rfl

/-! Claim C3. -/

/-- C3: editing an existing row with at least one supplied field changes
exactly the supplied fields of the rows with that identifier to the
supplied values, leaves every omitted field and every other row intact,
does not touch the other table or the counters, and reports the number
of supplied fields; a text field supplied as the empty string is written
as the empty string. -/
theorem C3_edit_supplied_fields (s : Store) (eid iid : Nat)
    (d : Option String) (a : Option Int) (c sc n : Option String)
    (d2 : Option String) (a2 : Option Int) (src2 n2 : Option String) :
    (s.expenses.any (fun r => r.id == eid) = true →
      (d.isSome || a.isSome || c.isSome || sc.isSome || n.isSome) = true →
      (edit_expense s eid d a c sc n).2 =
        EditResult.ok eid ((cond d.isSome 1 0) + (cond a.isSome 1 0) +
          (cond c.isSome 1 0) + (cond sc.isSome 1 0) + (cond n.isSome 1 0)) ∧
      (edit_expense s eid d a c sc n).1.expenses =
        s.expenses.map (fun r =>
          if r.id = eid then
            ⟨r.id, d.getD r.date, a.getD r.amount, c.getD r.category,
              sc.getD r.subcategory, n.getD r.note⟩
          else r) ∧
      (edit_expense s eid d a c sc n).1.income = s.income ∧
      (edit_expense s eid d a c sc n).1.nextExpenseId = s.nextExpenseId ∧
      (edit_expense s eid d a c sc n).1.nextIncomeId = s.nextIncomeId) ∧
    (s.income.any (fun r => r.id == iid) = true →
      (d2.isSome || a2.isSome || src2.isSome || n2.isSome) = true →
      (edit_income s iid d2 a2 src2 n2).2 =
        EditResult.ok iid ((cond d2.isSome 1 0) + (cond a2.isSome 1 0) +
          (cond src2.isSome 1 0) + (cond n2.isSome 1 0)) ∧
      (edit_income s iid d2 a2 src2 n2).1.income =
        s.income.map (fun r =>
          if r.id = iid then
            ⟨r.id, d2.getD r.date, a2.getD r.amount, src2.getD r.source,
              n2.getD r.note⟩
          else r) ∧
      (edit_income s iid d2 a2 src2 n2).1.expenses = s.expenses ∧
      (edit_income s iid d2 a2 src2 n2).1.nextExpenseId = s.nextExpenseId ∧
      (edit_income s iid d2 a2 src2 n2).1.nextIncomeId = s.nextIncomeId) := by
  constructor
  · intro hex hne
    have hemp : (expenseUpdates d a c sc n).isEmpty = false := by
      rw [Bool.eq_false_iff]
      intro hcontr
      obtain ⟨e1, e2, e3, e4, e5⟩ := (expenseUpdates_isEmpty d a c sc n).mp hcontr
      rw [e1, e2, e3, e4, e5] at hne
      simp at hne
    refine ⟨?_, ?_, ?_, ?_, ?_⟩ <;>
      simp [edit_expense, hex, hemp, expenseUpdates_length,
        applyExpenseUpdates_eq]
  · intro hex2 hne2
    have hemp2 : (incomeUpdates d2 a2 src2 n2).isEmpty = false := by
      rw [Bool.eq_false_iff]
      intro hcontr
      obtain ⟨e1, e2, e3, e4⟩ := (incomeUpdates_isEmpty d2 a2 src2 n2).mp hcontr
      rw [e1, e2, e3, e4] at hne2
      simp at hne2
    refine ⟨?_, ?_, ?_, ?_, ?_⟩ <;>
      simp [edit_income, hex2, hemp2, incomeUpdates_length,
        applyIncomeUpdates_eq]

/-- C3 witness: on the concrete store, editing expense 3 with a new
amount and an explicit empty-string note changes exactly those two
fields of row 3, reports 2 updated fields, and leaves everything else
alone; editing income 1 with a new source changes only the source. -/
theorem C3_witness :
    (edit_expense demoStore 3 none (some 25) none none (some "")).2 =
      EditResult.ok 3 2 ∧
    (edit_expense demoStore 3 none (some 25) none none (some "")).1.expenses =
      [⟨1, "2024-01-05", 50, "Food & Dining", "", ""⟩,
       ⟨2, "2024-01-10", 20, "Food & Dining", "", ""⟩,
       ⟨3, "2024-01-12", 25, "Travel", "flight", ""⟩] ∧
    (edit_expense demoStore 3 none (some 25) none none (some "")).1.income =
      demoStore.income ∧
    (edit_income demoStore 1 none none (some "Bonus") none).2 =
      EditResult.ok 1 1 ∧
    (edit_income demoStore 1 none none (some "Bonus") none).1.income =
      [⟨1, "2024-01-07", 1000, "Bonus", ""⟩] := by
  have h := C3_edit_supplied_fields demoStore 3 1 none (some 25) none none (some "")
    none none (some "Bonus") none
  have h1 := h.1 (by decide) (by decide)
  have h2 := h.2 (by decide) (by decide)
  refine ⟨h1.1, ?_, h1.2.2.1, h2.1, ?_⟩
  · rw [h1.2.1]
    decide
  · rw [h2.2.1]
    decide

/-! Claim C4. -/

/-- C4: `list_expenses` returns a permutation of exactly the expense
rows whose date lies in the inclusive range under byte-wise string
comparison, in an order that is date descending with ties broken by
identifier descending, and the empty list when no row matches. -/
theorem C4_list_expenses_range_order (s : Store) (a b : String) :
    (list_expenses s a b).Perm
      (s.expenses.filter (fun r => dateInRange a b r.date)) ∧
    (list_expenses s a b).Pairwise (fun r1 r2 =>
      strLt r2.date r1.date = true ∨ (r1.date = r2.date ∧ r2.id ≤ r1.id)) ∧
    ((∀ r ∈ s.expenses, dateInRange a b r.date = false) →
      list_expenses s a b = []) := by
  refine ⟨List.mergeSort_perm _ _, ?_, ?_⟩
  · have hs := @List.sorted_mergeSort ExpenseRow expenseDescLe
      expenseDescLe_trans expenseDescLe_total
      (s.expenses.filter (fun r => dateInRange a b r.date))
    apply List.Pairwise.imp ?_ hs
    intro r1 r2 h12
    simp only [expenseDescLe] at h12
    by_cases hd : r1.date = r2.date
    · rw [if_pos hd] at h12
      right
      exact ⟨hd, by simpa using h12⟩
    · rw [if_neg hd] at h12
      left
      have hne : ¬ r2.date = r1.date := fun e => hd e.symm
      simp [strLt, h12, hne]
  · intro h
    have hnil : s.expenses.filter (fun r => dateInRange a b r.date) = [] := by
      rw [List.filter_eq_nil_iff]
      intro r hr
      simp [h r hr]
    rw [list_expenses, hnil]
    exact List.mergeSort_nil

/-- C4 witness: on the concrete store an in-range query is a permutation
of the filtered table, and an out-of-range query returns the empty list
rather than an error. -/
theorem C4_witness :
    (list_expenses demoStore "2024-01-01" "2024-01-31").Perm
      (demoStore.expenses.filter
        (fun r => dateInRange "2024-01-01" "2024-01-31" r.date)) ∧
    list_expenses demoStore "2025-01-01" "2025-12-31" = [] :=
  ⟨(C4_list_expenses_range_order demoStore "2024-01-01" "2024-01-31").1,
   (C4_list_expenses_range_order demoStore "2025-01-01" "2025-12-31").2.2
    (by decide)⟩

/-! Claim C6. -/

/-- C6: with no category filter, the per-category totals of `summarize`
sum to the unfiltered sum of amounts over the same range, and the
per-category counts sum to the number of expense rows in range. -/
theorem C6_summarize_partition (s : Store) (a b : String) :
    ((summarize s a b none).map (fun g => g.total_amount)).sum =
      ((s.expenses.filter (fun r => dateInRange a b r.date)).map
        (fun r => r.amount)).sum ∧
    ((summarize s a b none).map (fun g => g.count)).sum =
      (s.expenses.filter (fun r => dateInRange a b r.date)).length := by
  have hcov : ∀ x ∈ s.expenses.filter (fun r => dateInRange a b r.date),
      (fun r : ExpenseRow => r.category) x ∈
        ((s.expenses.filter (fun r => dateInRange a b r.date)).map
          (fun r : ExpenseRow => r.category)).dedup :=
    fun x hx => List.mem_dedup.mpr (List.mem_map_of_mem _ hx)
  have hdef : summarize s a b none =
      ((((s.expenses.filter (fun r => dateInRange a b r.date)).map
          (fun r : ExpenseRow => r.category)).dedup).map (fun c =>
        CatSummary.mk c
          ((((s.expenses.filter (fun r => dateInRange a b r.date)).filter
              (fun r => r.category == c)).map (fun r => r.amount)).sum)
          (((s.expenses.filter (fun r => dateInRange a b r.date)).filter
              (fun r => r.category == c)).length))).mergeSort
        (fun x y => decide (y.total_amount ≤ x.total_amount)) := rfl
  have hperm := List.mergeSort_perm
    ((((s.expenses.filter (fun r => dateInRange a b r.date)).map
        (fun r : ExpenseRow => r.category)).dedup).map (fun c =>
      CatSummary.mk c
        ((((s.expenses.filter (fun r => dateInRange a b r.date)).filter
            (fun r => r.category == c)).map (fun r => r.amount)).sum)
        (((s.expenses.filter (fun r => dateInRange a b r.date)).filter
            (fun r => r.category == c)).length)))
    (fun x y => decide (y.total_amount ≤ x.total_amount))
  constructor
  · rw [hdef]
    refine ((hperm.map (fun g : CatSummary => g.total_amount)).sum_eq).trans ?_
    rw [List.map_map]
    exact sum_groups_eq (fun r : ExpenseRow => r.category)
      (fun r : ExpenseRow => r.amount) _ (List.nodup_dedup _) _ hcov
  · have key := sum_groups_eq (fun r : ExpenseRow => r.category)
      (fun _ => (1 : ℕ))
      ((s.expenses.filter (fun r => dateInRange a b r.date)).map
        (fun r : ExpenseRow => r.category)).dedup
      (List.nodup_dedup _)
      (s.expenses.filter (fun r => dateInRange a b r.date)) hcov
    rw [sum_map_one] at key
    have key2 :
        (((s.expenses.filter (fun r => dateInRange a b r.date)).map
            (fun r : ExpenseRow => r.category)).dedup.map (fun c =>
          ((s.expenses.filter (fun r => dateInRange a b r.date)).filter
            (fun r => r.category == c)).length)).sum =
          (s.expenses.filter (fun r => dateInRange a b r.date)).length := by
      rw [← key]
      apply congrArg
      apply List.map_congr_left
      intro c _
      rw [sum_map_one]
    rw [hdef]
    refine ((hperm.map (fun g : CatSummary => g.count)).sum_eq).trans ?_
    rw [List.map_map]
    exact key2

/-! Claim C7. -/

/-- C7: after a successful insert, a query over any range that contains
the insertion date returns a row carrying exactly the supplied values,
under the identifier the insert reported; taking the empty string for
subcategory and note gives the omitted-field defaults of the source. -/
theorem C7_add_then_list (s : Store) (d : String) (amt : Int)
    (cat sub no : String) (a b : String)
    (h1 : strLe a d = true) (h2 : strLe d b = true) :
    (add_expense s d amt cat sub no).2 = AddResult.ok s.nextExpenseId ∧
    (⟨s.nextExpenseId, d, amt, cat, sub, no⟩ : ExpenseRow) ∈
      list_expenses (add_expense s d amt cat sub no).1 a b := by
  refine ⟨rfl, ?_⟩
  rw [list_expenses]
  apply List.mem_mergeSort.mpr
  rw [List.mem_filter]
  constructor
  · simp [add_expense]
  · simp [dateInRange, h1, h2]

/-- C7 witness: a concrete insert into the concrete store, immediately
visible to a query over a range containing its date, with empty-string
subcategory and note. -/
theorem C7_witness :
    (add_expense demoStore "2024-01-20" 15 "Shopping" "" "").2 =
      AddResult.ok 4 ∧
    (⟨4, "2024-01-20", 15, "Shopping", "", ""⟩ : ExpenseRow) ∈
      list_expenses (add_expense demoStore "2024-01-20" 15 "Shopping" "" "").1
        "2024-01-01" "2024-01-31" :=
  C7_add_then_list demoStore "2024-01-20" 15 "Shopping" "" ""
    "2024-01-01" "2024-01-31" (by decide) (by decide)

/-! Frame lemmas used for the identifier invariants of claim C8. -/

/-- An UPDATE statement never touches the identifier column. -/
theorem edit_expense_keeps_id (i : Nat) (d : Option String) (a : Option Int)
    (c sc n : Option String) (r : ExpenseRow) :
    (if r.id == i then applyExpenseUpdates d a c sc n r else r).id = r.id := by
  by_cases h : r.id == i <;> simp [h, applyExpenseUpdates_eq]

/-- An income UPDATE statement never touches the identifier column. -/
theorem edit_income_keeps_id (i : Nat) (d : Option String) (a : Option Int)
    (src n : Option String) (r : IncomeRow) :
    (if r.id == i then applyIncomeUpdates d a src n r else r).id = r.id := by
  by_cases h : r.id == i <;> simp [h, applyIncomeUpdates_eq]

/-- The frame of `edit_expense`: the expense identifiers, the income
table and both counters are untouched on every path. -/
theorem edit_expense_frame (s : Store) (i : Nat) (d : Option String)
    (a : Option Int) (c sc n : Option String) :
    expenseIds (edit_expense s i d a c sc n).1 = expenseIds s ∧
    (edit_expense s i d a c sc n).1.income = s.income ∧
    (edit_expense s i d a c sc n).1.nextExpenseId = s.nextExpenseId ∧
    (edit_expense s i d a c sc n).1.nextIncomeId = s.nextIncomeId := by
  by_cases he : s.expenses.any (fun r => r.id == i)
  · by_cases hemp : (expenseUpdates d a c sc n).isEmpty
    · refine ⟨?_, ?_, ?_, ?_⟩ <;> simp [edit_expense, he, hemp]
    · have hstep : (edit_expense s i d a c sc n).1 =
          { s with expenses := s.expenses.map (fun r =>
              if r.id == i then applyExpenseUpdates d a c sc n r else r) } := by
        simp [edit_expense, he, hemp]
      refine ⟨?_, ?_, ?_, ?_⟩ <;> rw [hstep]
      · show ((s.expenses.map (fun r =>
            if r.id == i then applyExpenseUpdates d a c sc n r else r)).map
              (fun r => r.id)) = expenseIds s
        rw [List.map_map]
        apply List.map_congr_left
        intro r _
        exact edit_expense_keeps_id i d a c sc n r
  · refine ⟨?_, ?_, ?_, ?_⟩ <;> simp [edit_expense, he]

/-- The frame of `delete_expense`: the surviving expense rows are a
sublist, the income table and both counters are untouched. -/
theorem delete_expense_frame (s : Store) (i : Nat) :
    (delete_expense s i).1.expenses.Sublist s.expenses ∧
    (delete_expense s i).1.income = s.income ∧
    (delete_expense s i).1.nextExpenseId = s.nextExpenseId ∧
    (delete_expense s i).1.nextIncomeId = s.nextIncomeId := by
  by_cases he : s.expenses.any (fun r => r.id == i)
  · refine ⟨?_, ?_, ?_, ?_⟩ <;> simp [delete_expense, he]
  · refine ⟨?_, ?_, ?_, ?_⟩ <;> simp [delete_expense, he]

/-- The frame of `edit_income`. -/
theorem edit_income_frame (s : Store) (i : Nat) (d : Option String)
    (a : Option Int) (src n : Option String) :
    incomeIds (edit_income s i d a src n).1 = incomeIds s ∧
    (edit_income s i d a src n).1.expenses = s.expenses ∧
    (edit_income s i d a src n).1.nextExpenseId = s.nextExpenseId ∧
    (edit_income s i d a src n).1.nextIncomeId = s.nextIncomeId := by
  by_cases he : s.income.any (fun r => r.id == i)
  · by_cases hemp : (incomeUpdates d a src n).isEmpty
    · refine ⟨?_, ?_, ?_, ?_⟩ <;> simp [edit_income, he, hemp]
    · have hstep : (edit_income s i d a src n).1 =
          { s with income := s.income.map (fun r =>
              if r.id == i then applyIncomeUpdates d a src n r else r) } := by
        simp [edit_income, he, hemp]
      refine ⟨?_, ?_, ?_, ?_⟩ <;> rw [hstep]
      · show ((s.income.map (fun r =>
            if r.id == i then applyIncomeUpdates d a src n r else r)).map
              (fun r => r.id)) = incomeIds s
        rw [List.map_map]
        apply List.map_congr_left
        intro r _
        exact edit_income_keeps_id i d a src n r
  · refine ⟨?_, ?_, ?_, ?_⟩ <;> simp [edit_income, he]

/-- The frame of `delete_income`. -/
theorem delete_income_frame (s : Store) (i : Nat) :
    (delete_income s i).1.income.Sublist s.income ∧
    (delete_income s i).1.expenses = s.expenses ∧
    (delete_income s i).1.nextExpenseId = s.nextExpenseId ∧
    (delete_income s i).1.nextIncomeId = s.nextIncomeId := by
  by_cases he : s.income.any (fun r => r.id == i)
  · refine ⟨?_, ?_, ?_, ?_⟩ <;> simp [delete_income, he]
  · refine ⟨?_, ?_, ?_, ?_⟩ <;> simp [delete_income, he]

/-- Insertion into the expenses table appends exactly the fresh
AUTOINCREMENT identifier. -/
theorem add_expense_ids (s : Store) (d : String) (a : Int) (c sc n : String) :
    expenseIds (add_expense s d a c sc n).1 = expenseIds s ++ [s.nextExpenseId] := by
  simp [add_expense, expenseIds]

/-- Insertion into the income table appends exactly the fresh
AUTOINCREMENT identifier. -/
theorem add_income_ids (s : Store) (d : String) (a : Int) (src n : String) :
    incomeIds (add_income s d a src n).1 = incomeIds s ++ [s.nextIncomeId] := by
  simp [add_income, incomeIds]

/-- Every mutating operation preserves well-formedness of the store. -/
theorem applyOp_WF (s : Store) (op : Op) (h : storeWF s) : storeWF (applyOp s op) := by
  obtain ⟨h1, h2, h3, h4⟩ := h
  cases op with
  | addExp d a c sc n =>
    refine ⟨?_, ?_, h3, h4⟩
    · show (expenseIds (add_expense s d a c sc n).1).Nodup
      rw [add_expense_ids, List.nodup_append]
      refine ⟨h1, List.nodup_singleton _, ?_⟩
      intro x hx hx2
      have hxn : x = s.nextExpenseId := by simpa using hx2
      have := h2 x hx
      omega
    · intro x hx
      have hx' : x ∈ expenseIds (add_expense s d a c sc n).1 := hx
      rw [add_expense_ids] at hx'
      show x < s.nextExpenseId + 1
      rcases List.mem_append.mp hx' with hmem | hmem
      · have := h2 x hmem
        omega
      · have : x = s.nextExpenseId := by simpa using hmem
        omega
  | editExp i d a c sc n =>
    obtain ⟨f1, f2, f3, f4⟩ := edit_expense_frame s i d a c sc n
    refine ⟨?_, ?_, ?_, ?_⟩
    · show (expenseIds (edit_expense s i d a c sc n).1).Nodup
      rw [f1]
      exact h1
    · intro x hx
      have hx' : x ∈ expenseIds (edit_expense s i d a c sc n).1 := hx
      rw [f1] at hx'
      show x < (edit_expense s i d a c sc n).1.nextExpenseId
      rw [f3]
      exact h2 x hx'
    · show (incomeIds (edit_expense s i d a c sc n).1).Nodup
      unfold incomeIds
      rw [f2]
      exact h3
    · intro x hx
      have hx' : x ∈ incomeIds (edit_expense s i d a c sc n).1 := hx
      unfold incomeIds at hx'
      rw [f2] at hx'
      show x < (edit_expense s i d a c sc n).1.nextIncomeId
      rw [f4]
      exact h4 x hx'
  | delExp i =>
    obtain ⟨fsub, f2, f3, f4⟩ := delete_expense_frame s i
    have hsub : (expenseIds (delete_expense s i).1).Sublist (expenseIds s) :=
      fsub.map (fun r : ExpenseRow => r.id)
    refine ⟨?_, ?_, ?_, ?_⟩
    · exact h1.sublist hsub
    · intro x hx
      have hx' : x ∈ expenseIds (delete_expense s i).1 := hx
      show x < (delete_expense s i).1.nextExpenseId
      rw [f3]
      exact h2 x (hsub.subset hx')
    · show (incomeIds (delete_expense s i).1).Nodup
      unfold incomeIds
      rw [f2]
      exact h3
    · intro x hx
      have hx' : x ∈ incomeIds (delete_expense s i).1 := hx
      unfold incomeIds at hx'
      rw [f2] at hx'
      show x < (delete_expense s i).1.nextIncomeId
      rw [f4]
      exact h4 x hx'
  | addInc d a src n =>
    refine ⟨h1, h2, ?_, ?_⟩
    · show (incomeIds (add_income s d a src n).1).Nodup
      rw [add_income_ids, List.nodup_append]
      refine ⟨h3, List.nodup_singleton _, ?_⟩
      intro x hx hx2
      have hxn : x = s.nextIncomeId := by simpa using hx2
      have := h4 x hx
      omega
    · intro x hx
      have hx' : x ∈ incomeIds (add_income s d a src n).1 := hx
      rw [add_income_ids] at hx'
      show x < s.nextIncomeId + 1
      rcases List.mem_append.mp hx' with hmem | hmem
      · have := h4 x hmem
        omega
      · have : x = s.nextIncomeId := by simpa using hmem
        omega
  | editInc i d a src n =>
    obtain ⟨f1, f2, f3, f4⟩ := edit_income_frame s i d a src n
    refine ⟨?_, ?_, ?_, ?_⟩
    · show (expenseIds (edit_income s i d a src n).1).Nodup
      unfold expenseIds
      rw [f2]
      exact h1
    · intro x hx
      have hx' : x ∈ expenseIds (edit_income s i d a src n).1 := hx
      unfold expenseIds at hx'
      rw [f2] at hx'
      show x < (edit_income s i d a src n).1.nextExpenseId
      rw [f3]
      exact h2 x hx'
    · show (incomeIds (edit_income s i d a src n).1).Nodup
      rw [f1]
      exact h3
    · intro x hx
      have hx' : x ∈ incomeIds (edit_income s i d a src n).1 := hx
      rw [f1] at hx'
      show x < (edit_income s i d a src n).1.nextIncomeId
      rw [f4]
      exact h4 x hx'
  | delInc i =>
    obtain ⟨fsub, f2, f3, f4⟩ := delete_income_frame s i
    have hsub : (incomeIds (delete_income s i).1).Sublist (incomeIds s) :=
      fsub.map (fun r : IncomeRow => r.id)
    refine ⟨?_, ?_, ?_, ?_⟩
    · show (expenseIds (delete_income s i).1).Nodup
      unfold expenseIds
      rw [f2]
      exact h1
    · intro x hx
      have hx' : x ∈ expenseIds (delete_income s i).1 := hx
      unfold expenseIds at hx'
      rw [f2] at hx'
      show x < (delete_income s i).1.nextExpenseId
      rw [f3]
      exact h2 x hx'
    · exact h3.sublist hsub
    · intro x hx
      have hx' : x ∈ incomeIds (delete_income s i).1 := hx
      show x < (delete_income s i).1.nextIncomeId
      rw [f4]
      exact h4 x (hsub.subset hx')

/-- Every sequence of operations preserves well-formedness. -/
theorem applyOps_WF (s : Store) (ops : List Op) (h : storeWF s) :
    storeWF (applyOps s ops) := by
  induction ops generalizing s with
  | nil => exact h
  | cons op ops ih => exact ih (applyOp s op) (applyOp_WF s op h)

/-- The AUTOINCREMENT counters never decrease under one operation. -/
theorem applyOp_counters_mono (s : Store) (op : Op) :
    s.nextExpenseId ≤ (applyOp s op).nextExpenseId ∧
    s.nextIncomeId ≤ (applyOp s op).nextIncomeId := by
  cases op with
  | addExp d a c sc n => exact ⟨Nat.le_succ _, Nat.le_refl _⟩
  | editExp i d a c sc n =>
    obtain ⟨_, _, f3, f4⟩ := edit_expense_frame s i d a c sc n
    exact ⟨Nat.le_of_eq f3.symm, Nat.le_of_eq f4.symm⟩
  | delExp i =>
    obtain ⟨_, _, f3, f4⟩ := delete_expense_frame s i
    exact ⟨Nat.le_of_eq f3.symm, Nat.le_of_eq f4.symm⟩
  | addInc d a src n => exact ⟨Nat.le_refl _, Nat.le_succ _⟩
  | editInc i d a src n =>
    obtain ⟨_, _, f3, f4⟩ := edit_income_frame s i d a src n
    exact ⟨Nat.le_of_eq f3.symm, Nat.le_of_eq f4.symm⟩
  | delInc i =>
    obtain ⟨_, _, f3, f4⟩ := delete_income_frame s i
    exact ⟨Nat.le_of_eq f3.symm, Nat.le_of_eq f4.symm⟩

/-- The AUTOINCREMENT counters never decrease under a sequence. -/
theorem applyOps_counters_mono (s : Store) (ops : List Op) :
    s.nextExpenseId ≤ (applyOps s ops).nextExpenseId ∧
    s.nextIncomeId ≤ (applyOps s ops).nextIncomeId := by
  induction ops generalizing s with
  | nil => exact ⟨Nat.le_refl _, Nat.le_refl _⟩
  | cons op ops ih =>
    obtain ⟨m1, m2⟩ := applyOp_counters_mono s op
    obtain ⟨n1, n2⟩ := ih (applyOp s op)
    exact ⟨Nat.le_trans m1 n1, Nat.le_trans m2 n2⟩

/-- An identifier below the counter that is absent from its table never
reappears after one operation. -/
theorem applyOp_no_revival (s : Store) (op : Op) (i : Nat) :
    (i < s.nextExpenseId → i ∉ expenseIds s → i ∉ expenseIds (applyOp s op)) ∧
    (i < s.nextIncomeId → i ∉ incomeIds s → i ∉ incomeIds (applyOp s op)) := by
  cases op with
  | addExp d a c sc n =>
    constructor
    · intro hlt hnot hmem
      have hmem' : i ∈ expenseIds (add_expense s d a c sc n).1 := hmem
      rw [add_expense_ids] at hmem'
      rcases List.mem_append.mp hmem' with hm | hm
      · exact hnot hm
      · have : i = s.nextExpenseId := by simpa using hm
        omega
    · intro _ hnot hmem
      exact hnot hmem
  | editExp j d a c sc n =>
    obtain ⟨f1, f2, _, _⟩ := edit_expense_frame s j d a c sc n
    constructor
    · intro _ hnot hmem
      have hmem' : i ∈ expenseIds (edit_expense s j d a c sc n).1 := hmem
      rw [f1] at hmem'
      exact hnot hmem'
    · intro _ hnot hmem
      have hmem' : i ∈ incomeIds (edit_expense s j d a c sc n).1 := hmem
      unfold incomeIds at hmem'
      rw [f2] at hmem'
      exact hnot hmem'
  | delExp j =>
    obtain ⟨fsub, f2, _, _⟩ := delete_expense_frame s j
    constructor
    · intro _ hnot hmem
      have hmem' : i ∈ expenseIds (delete_expense s j).1 := hmem
      exact hnot ((fsub.map (fun r : ExpenseRow => r.id)).subset hmem')
    · intro _ hnot hmem
      have hmem' : i ∈ incomeIds (delete_expense s j).1 := hmem
      unfold incomeIds at hmem'
      rw [f2] at hmem'
      exact hnot hmem'
  | addInc d a src n =>
    constructor
    · intro _ hnot hmem
      exact hnot hmem
    · intro hlt hnot hmem
      have hmem' : i ∈ incomeIds (add_income s d a src n).1 := hmem
      rw [add_income_ids] at hmem'
      rcases List.mem_append.mp hmem' with hm | hm
      · exact hnot hm
      · have : i = s.nextIncomeId := by simpa using hm
        omega
  | editInc j d a src n =>
    obtain ⟨f1, f2, _, _⟩ := edit_income_frame s j d a src n
    constructor
    · intro _ hnot hmem
      have hmem' : i ∈ expenseIds (edit_income s j d a src n).1 := hmem
      unfold expenseIds at hmem'
      rw [f2] at hmem'
      exact hnot hmem'
    · intro _ hnot hmem
      have hmem' : i ∈ incomeIds (edit_income s j d a src n).1 := hmem
      rw [f1] at hmem'
      exact hnot hmem'
  | delInc j =>
    obtain ⟨fsub, f2, _, _⟩ := delete_income_frame s j
    constructor
    · intro _ hnot hmem
      have hmem' : i ∈ expenseIds (delete_income s j).1 := hmem
      unfold expenseIds at hmem'
      rw [f2] at hmem'
      exact hnot hmem'
    · intro _ hnot hmem
      have hmem' : i ∈ incomeIds (delete_income s j).1 := hmem
      exact hnot ((fsub.map (fun r : IncomeRow => r.id)).subset hmem')

/-- An identifier below the counter that is absent from its table never
reappears along any sequence of operations. -/
theorem applyOps_no_revival (s : Store) (ops : List Op) (i : Nat) :
    (i < s.nextExpenseId → i ∉ expenseIds s → i ∉ expenseIds (applyOps s ops)) ∧
    (i < s.nextIncomeId → i ∉ incomeIds s → i ∉ incomeIds (applyOps s ops)) := by
  induction ops generalizing s with
  | nil => exact ⟨fun _ h => h, fun _ h => h⟩
  | cons op ops ih =>
    obtain ⟨m1, m2⟩ := applyOp_counters_mono s op
    constructor
    · intro hlt hnot
      exact (ih (applyOp s op)).1 (Nat.lt_of_lt_of_le hlt m1)
        ((applyOp_no_revival s op i).1 hlt hnot)
    · intro hlt hnot
      exact (ih (applyOp s op)).2 (Nat.lt_of_lt_of_le hlt m2)
        ((applyOp_no_revival s op i).2 hlt hnot)

/-! Claim C8. -/

/-- C8: after any sequence of mutating operations from a freshly
initialised store, identifiers are duplicate-free within each table, and
an identifier that is below the counter and absent from its table, which
covers every identifier assigned and later deleted, is never assigned
again by any further sequence of operations. -/
theorem C8_ids_unique_never_reused (ops1 ops2 : List Op) :
    (expenseIds (applyOps (applyOps freshStore ops1) ops2)).Nodup ∧
    (incomeIds (applyOps (applyOps freshStore ops1) ops2)).Nodup ∧
    (∀ i, i < (applyOps freshStore ops1).nextExpenseId →
      i ∉ expenseIds (applyOps freshStore ops1) →
      i ∉ expenseIds (applyOps (applyOps freshStore ops1) ops2)) ∧
    (∀ i, i < (applyOps freshStore ops1).nextIncomeId →
      i ∉ incomeIds (applyOps freshStore ops1) →
      i ∉ incomeIds (applyOps (applyOps freshStore ops1) ops2)) := by
  have hwf : storeWF freshStore := ⟨by decide, by decide, by decide, by decide⟩
  have hwf2 := applyOps_WF (applyOps freshStore ops1) ops2
    (applyOps_WF freshStore ops1 hwf)
  refine ⟨hwf2.1, hwf2.2.2.1, ?_, ?_⟩
  · intro i hlt hnot
    exact (applyOps_no_revival (applyOps freshStore ops1) ops2 i).1 hlt hnot
  · intro i hlt hnot
    exact (applyOps_no_revival (applyOps freshStore ops1) ops2 i).2 hlt hnot

/-- C8 witness: identifier 2 is assigned by the first insert after a
fresh initialisation, deleted, and not assigned again by a later insert,
and the final identifier list is duplicate-free. -/
theorem C8_witness :
    (expenseIds (applyOps (applyOps freshStore
      [Op.addExp "2024-01-01" 5 "Food & Dining" "" "", Op.delExp 2])
      [Op.addExp "2024-02-01" 6 "Food & Dining" "" ""])).Nodup ∧
    2 ∉ expenseIds (applyOps (applyOps freshStore
      [Op.addExp "2024-01-01" 5 "Food & Dining" "" "", Op.delExp 2])
      [Op.addExp "2024-02-01" 6 "Food & Dining" "" ""]) :=
  ⟨(C8_ids_unique_never_reused
      [Op.addExp "2024-01-01" 5 "Food & Dining" "" "", Op.delExp 2]
      [Op.addExp "2024-02-01" 6 "Food & Dining" "" ""]).1,
   (C8_ids_unique_never_reused
      [Op.addExp "2024-01-01" 5 "Food & Dining" "" "", Op.delExp 2]
      [Op.addExp "2024-02-01" 6 "Food & Dining" "" ""]).2.2.1 2
      (by decide) (by decide)⟩
